import Mathlib

/-!
Verification of the MyAstrolog core: the scoring engine of
`my_astro_bot/core/calculator.py` (class AstroCalculator) and the lunar
return search, planetary snapshot and chart point computation of
`my_astro_bot/core/astrology.py` (class AstrologyEngine).

The Python dictionaries are embedded as insertion-ordered association
lists, Python dict lookup as first-occurrence lookup, and Python
floating point values as real numbers; time is counted in integer hours
because the search loop of `_find_next_return` advances in fixed
1-hour steps.
-/

/-- Element and modality (called cross in the source) attributes of one
zodiac sign or one house, mirroring the inner dicts of
`AstroCalculator.ZODIAC` and `AstroCalculator.HOUSE_PROPS`. -/
structure SignProps where
  element : String
  cross : String
deriving DecidableEq

/-- The planet weight table `AstroCalculator.WEIGHTS`. -/
def WEIGHTS : List (String × Nat) :=
  [("Sun", 5), ("Moon", 5), ("Mercury", 3), ("Venus", 3), ("Mars", 3),
   ("Jupiter", 2), ("Saturn", 2), ("Uranus", 1), ("Neptune", 1), ("Pluto", 1)]

/-- The fixed zodiac table `AstroCalculator.ZODIAC`, in source order. -/
def ZODIAC : List (String × SignProps) :=
  [("Aries",       ⟨"Огонь",  "Кардинальный"⟩),
   ("Taurus",      ⟨"Земля",  "Фиксированный"⟩),
   ("Gemini",      ⟨"Воздух", "Мутабельный"⟩),
   ("Cancer",      ⟨"Вода",   "Кардинальный"⟩),
   ("Leo",         ⟨"Огонь",  "Фиксированный"⟩),
   ("Virgo",       ⟨"Земля",  "Мутабельный"⟩),
   ("Libra",       ⟨"Воздух", "Кардинальный"⟩),
   ("Scorpio",     ⟨"Вода",   "Фиксированный"⟩),
   ("Sagittarius", ⟨"Огонь",  "Мутабельный"⟩),
   ("Capricorn",   ⟨"Земля",  "Кардинальный"⟩),
   ("Aquarius",    ⟨"Воздух", "Фиксированный"⟩),
   ("Pisces",      ⟨"Вода",   "Мутабельный"⟩)]

/-- The fixed house table `AstroCalculator.HOUSE_PROPS`, in source order. -/
def HOUSE_PROPS : List (Int × SignProps) :=
  [(1,  ⟨"Огонь",  "Кардинальный"⟩),
   (2,  ⟨"Земля",  "Фиксированный"⟩),
   (3,  ⟨"Воздух", "Мутабельный"⟩),
   (4,  ⟨"Вода",   "Кардинальный"⟩),
   (5,  ⟨"Огонь",  "Фиксированный"⟩),
   (6,  ⟨"Земля",  "Мутабельный"⟩),
   (7,  ⟨"Воздух", "Кардинальный"⟩),
   (8,  ⟨"Вода",   "Фиксированный"⟩),
   (9,  ⟨"Огонь",  "Мутабельный"⟩),
   (10, ⟨"Земля",  "Кардинальный"⟩),
   (11, ⟨"Воздух", "Фиксированный"⟩),
   (12, ⟨"Вода",   "Мутабельный"⟩)]

/-- The four element values appearing in the fixed tables. -/
def ELEMENTS : List String := ["Огонь", "Земля", "Воздух", "Вода"]

/-- The three modality (cross) values appearing in the fixed tables. -/
def CROSSES : List String := ["Кардинальный", "Фиксированный", "Мутабельный"]

/-- Projection of one table row to its (element, modality) pair. -/
def pairOf {α : Type} (q : α × SignProps) : String × String :=
  (q.2.element, q.2.cross)

/-- Python `dict.get(k)`: first-occurrence lookup in an association list,
`none` when the key is absent. -/
def dictGet {α β : Type} [BEq α] : List (α × β) → α → Option β
  | [], _ => none
  | q :: t, k => if q.1 == k then some q.2 else dictGet t k

/-- Python `dict.get(k, 0)` on a score dict: first-occurrence lookup
defaulting to 0. -/
def alGet : List (String × Nat) → String → Nat
  | [], _ => 0
  | q :: t, k => if q.1 == k then q.2 else alGet t k

/-- Python `d[k] = v` on a score dict: replace the value at the first
occurrence of the key, or append the pair when the key is absent. -/
def alSet : List (String × Nat) → String → Nat → List (String × Nat)
  | [], k, v => [(k, v)]
  | q :: t, k, v => if q.1 == k then (k, v) :: t else q :: alSet t k v

/-- The update `d[k] = d.get(k, 0) + w` performed by `calculate_scores`. -/
def bump (d : List (String × Nat)) (k : String) (w : Nat) : List (String × Nat) :=
  alSet d k (alGet d k + w)

/-- One entry of the planets list consumed by `calculate_scores`:
the name, sign and house fields of the dicts built by
`AstrologyEngine.get_planets_data`. -/
structure PlanetIn where
  name : String
  sign : String
  house : Int

/-- One of the two score dicts built by `calculate_scores`:
the `elements` and `crosses` mappings. -/
structure ScoreTable where
  elements : List (String × Nat)
  crosses : List (String × Nat)

/-- The body of the loop of `AstroCalculator.calculate_scores` for one
planet: skip when the weight is missing or zero, otherwise add the
weight to the element and cross buckets of the sign (when the sign is in
the zodiac table) and of the house (when the house is in the house
table). -/
def scoreStep (acc : ScoreTable × ScoreTable) (p : PlanetIn) : ScoreTable × ScoreTable :=
  let w := (dictGet WEIGHTS p.name).getD 0
  if w = 0 then acc
  else
    let ss :=
      match dictGet ZODIAC p.sign with
      | some props => ScoreTable.mk (bump acc.1.elements props.element w) (bump acc.1.crosses props.cross w)
      | none => acc.1
    let hs :=
      match dictGet HOUSE_PROPS p.house with
      | some props => ScoreTable.mk (bump acc.2.elements props.element w) (bump acc.2.crosses props.cross w)
      | none => acc.2
    (ss, hs)

/-- `AstroCalculator.calculate_scores`: fold of `scoreStep` over the
planet list starting from two empty score tables. -/
def calculate_scores (planets : List PlanetIn) : ScoreTable × ScoreTable :=
  planets.foldl scoreStep (ScoreTable.mk [] [], ScoreTable.mk [] [])

/-- Sum of the values of a score dict. -/
def sumVals (d : List (String × Nat)) : Nat :=
  (d.map (fun q => q.2)).sum

/-- Python `max(d, key=d.get)`: scan the keys keeping the first key whose
value is strictly greater than the current best; `none` on the empty
dict (where Python max would raise, a case `get_dominants` guards). -/
def pyMaxKey : List (String × Nat) → Option String
  | [] => none
  | q :: t =>
      some (t.foldl (fun best r => if alGet (q :: t) r.1 > alGet (q :: t) best then r.1 else best) q.1)

/-- `AstroCalculator.get_dominants`: the sentinel pair (None, None) when
either mapping is empty, otherwise the per-mapping argmax keys. -/
def get_dominants (s : ScoreTable) : Option String × Option String :=
  if s.elements.isEmpty || s.crosses.isEmpty then (none, none)
  else (pyMaxKey s.elements, pyMaxKey s.crosses)

/-- Python falsiness of an optional string argument: None and the empty
string are falsy, as tested by `if not element or not cross`. -/
def falsy : Option String → Bool
  | none => true
  | some s => s == ""

/-- `AstroCalculator.get_synthetic_sign`: None for a falsy argument,
otherwise the first zodiac table entry matching the pair. -/
def get_synthetic_sign (element cross : Option String) : Option String :=
  if falsy element || falsy cross then none
  else
    match ZODIAC.find? (fun q => (some q.2.element == element) && (some q.2.cross == cross)) with
    | some q => some q.1
    | none => none

/-- `AstroCalculator.get_synthetic_house`: None for a falsy argument,
otherwise `str(house)` for the first house table entry matching the
pair. -/
def get_synthetic_house (element cross : Option String) : Option String :=
  if falsy element || falsy cross then none
  else
    match HOUSE_PROPS.find? (fun q => (some q.2.element == element) && (some q.2.cross == cross)) with
    | some q => some (toString q.1)
    | none => none

/-- The sign name list of `AstrologyEngine.get_planets_data` and
`AstrologyEngine.get_chart_points`. -/
def signNames : List String :=
  ["Aries", "Taurus", "Gemini", "Cancer", "Leo", "Virgo",
   "Libra", "Scorpio", "Sagittarius", "Capricorn", "Aquarius", "Pisces"]

/-- The fixed ordered body list of `AstrologyEngine.get_planets_data`. -/
def bodyNames : List String :=
  ["Sun", "Moon", "Mercury", "Venus", "Mars",
   "Jupiter", "Saturn", "Uranus", "Neptune", "Pluto"]

/-- The angular distance computed inside
`AstrologyEngine._find_next_return`: take the absolute difference of the
two longitudes in radians and fold it over pi. -/
noncomputable def angDist (a b : ℝ) : ℝ :=
  if |a - b| > Real.pi then 2 * Real.pi - |a - b| else |a - b|

/-- The search loop of `AstrologyEngine._find_next_return`: starting at
hour t with n loop iterations left, return the current hour when the
angular distance of the Moon longitude to the natal longitude is below
0.01 radians, otherwise advance one hour; `none` when the iterations run
out. `moonLon t` stands for the ephemeris Moon ecliptic longitude in
radians at integer hour t. -/
noncomputable def findLoop (moonLon : ℤ → ℝ) (natal : ℝ) : ℕ → ℤ → Option ℤ
  | 0, _ => none
  | n + 1, t =>
      if angDist (moonLon t) natal < 0.01 then some t
      else findLoop moonLon natal n (t + 1)

/-- `AstrologyEngine._find_next_return`: run the hourly search loop for
42 * 24 iterations from the given start hour. -/
noncomputable def find_next_return (moonLon : ℤ → ℝ) (natal : ℝ) (startFrom : ℤ) : Option ℤ :=
  findLoop moonLon natal (42 * 24) startFrom

/-- The start date chosen by `AstrologyEngine.get_lunar_return`: the
first hit of the search launched 14 days before the captured current UTC
hour, falling back to that current hour when the search returns None. -/
noncomputable def lunar_return_start (moonLon : ℤ → ℝ) (natal : ℝ) (now : ℤ) : ℤ :=
  (find_next_return moonLon natal (now - 14 * 24)).getD now

/-- The (start_date, end_date) pair returned by
`AstrologyEngine.get_lunar_return`: the end search starts 25 days after
the found start and falls back to start plus 27 days 8 hours. -/
noncomputable def get_lunar_return (moonLon : ℤ → ℝ) (natal : ℝ) (now : ℤ) : ℤ × ℤ :=
  (lunar_return_start moonLon natal now,
   (find_next_return moonLon natal (lunar_return_start moonLon natal now + 25 * 24)).getD
     (lunar_return_start moonLon natal now + (27 * 24 + 8)))

/-- Python `int(x)` on a float: truncation toward zero. -/
noncomputable def pythonTrunc (x : ℝ) : ℤ :=
  if 0 ≤ x then ⌊x⌋ else ⌈x⌉

/-- The sequential delta normalization of the retrograde check in
`AstrologyEngine.get_planets_data`: subtract 360 when the delta exceeds
180, then add 360 when the result is below -180. -/
noncomputable def normDelta (d : ℝ) : ℝ :=
  let d1 := if d > 180 then d - 360 else d
  if d1 < -180 then d1 + 360 else d1

/-- One entry of the list built by `AstrologyEngine.get_planets_data`. -/
structure PlanetData where
  name : String
  sign : String
  house : ℤ
  lon_deg : ℝ
  is_retro : Prop

/-- The loop body of `AstrologyEngine.get_planets_data` for one body,
given the ascendant sign index and the ecliptic longitudes in degrees at
the chart instant and 24 hours later. -/
noncomputable def mkPlanet (ascIdx : ℤ) (name : String) (lon lonNext : ℝ) : PlanetData :=
  { name := name
    sign := signNames.getD ((pythonTrunc (lon / 30) % 12).toNat) ""
    house := ((pythonTrunc (lon / 30) - ascIdx) % 12) + 1
    lon_deg := lon
    is_retro := normDelta (lonNext - lon) < 0 }

/-- `AstrologyEngine.get_planets_data`: one entry per body of the fixed
ordered body list. `lonAt n` and `lonNextAt n` stand for the ephemeris
ecliptic longitude in degrees of body n at the chart instant and one day
later. -/
noncomputable def get_planets_data (ascIdx : ℤ) (lonAt lonNextAt : String → ℝ) : List PlanetData :=
  bodyNames.map (fun n => mkPlanet ascIdx n (lonAt n) (lonNextAt n))

/-- Python `math.atan2(y, x)`, embedded as the argument of the complex
number x + y i, which lies in (-pi, pi] and is 0 at the origin. -/
noncomputable def atan2 (y x : ℝ) : ℝ :=
  Complex.arg ⟨x, y⟩

/-- `AstrologyEngine.get_chart_points`: ascendant and midheaven sign
names from the local sidereal time and the observer latitude, both in
radians. The code contains no latitude validation: every branch is a
total arithmetic computation ending in a modulo-12 table index. -/
noncomputable def get_chart_points (lst lat : ℝ) : String × String :=
  let eps := 23.44 * Real.pi / 180
  let denom := -Real.sin lst * Real.cos eps + (-Real.tan lat * Real.sin eps)
  let numer := Real.cos lst
  let ascDeg0 := atan2 numer denom * 180 / Real.pi
  let ascDeg := if ascDeg0 < 0 then ascDeg0 + 360 else ascDeg0
  let mcDeg0 := atan2 (Real.sin lst) (Real.cos lst * Real.cos eps) * 180 / Real.pi
  let mcDeg := if mcDeg0 < 0 then mcDeg0 + 360 else mcDeg0
  (signNames.getD ((pythonTrunc (ascDeg / 30) % 12).toNat) "",
   signNames.getD ((pythonTrunc (mcDeg / 30) % 12).toNat) "")

/-- C6: in the fixed zodiac table the 12 signs carry pairwise-distinct
(element, modality) pairs covering all 4 * 3 = 12 combinations exactly
once, and the fixed house table for houses 1..12 independently satisfies
the same property (each pair list is duplicate-free and is a permutation
of the full product of the element and modality value lists). -/
theorem tables_partition :
    (ZODIAC.map pairOf).Nodup ∧
    List.Perm (ZODIAC.map pairOf) (ELEMENTS.product CROSSES) ∧
    (HOUSE_PROPS.map pairOf).Nodup ∧
    List.Perm (HOUSE_PROPS.map pairOf) (ELEMENTS.product CROSSES) ∧
    HOUSE_PROPS.map (fun q => q.1) = [1, 2, 3, 4, 5, 6, 7, 8, 9, 10, 11, 12] := by
  refine ⟨by decide, by decide, by decide, by decide, by decide⟩

/-- C7: for each of the 12 possible (element, modality) pairs,
`get_synthetic_sign` returns exactly one zodiac sign and
`get_synthetic_house` exactly one house whose table entry matches the
pair (the unique match of the linear table scan), and for every sign and
house, synthesizing from its own pair returns it. -/
theorem synthetic_resolution_spec :
    (∀ e ∈ ELEMENTS, ∀ c ∈ CROSSES,
        (ZODIAC.filter (fun q => q.2.element == e && q.2.cross == c)).length = 1 ∧
        (get_synthetic_sign (some e) (some c)).isSome = true ∧
        dictGet ZODIAC ((get_synthetic_sign (some e) (some c)).getD "") = some (SignProps.mk e c) ∧
        (HOUSE_PROPS.filter (fun q => q.2.element == e && q.2.cross == c)).length = 1 ∧
        (get_synthetic_house (some e) (some c)).isSome = true) ∧
    (∀ q ∈ ZODIAC, get_synthetic_sign (some q.2.element) (some q.2.cross) = some q.1) ∧
    (∀ q ∈ HOUSE_PROPS, get_synthetic_house (some q.2.element) (some q.2.cross) = some (toString q.1)) := by
  refine ⟨by decide, by decide, by decide⟩

/-- Witness for C7: the Fire and Cardinal pair resolves to Aries, and
the Water and Mutable pair resolves to house 12. -/
theorem synthetic_resolution_spec_witness :
    get_synthetic_sign (some "Огонь") (some "Кардинальный") = some "Aries" ∧
    get_synthetic_house (some "Вода") (some "Мутабельный") = some (toString (12 : Int)) := by
  have h := synthetic_resolution_spec
  exact ⟨h.2.1 ("Aries", SignProps.mk "Огонь" "Кардинальный") (by decide),
         h.2.2 ((12 : Int), SignProps.mk "Вода" "Мутабельный") (by decide)⟩

/-- Updating a score dict at a key stores exactly that value at the key. -/
theorem alGet_alSet_self (d : List (String × Nat)) (k : String) (v : Nat) :
    alGet (alSet d k v) k = v := by
  induction d with
  | nil => simp [alSet, alGet]
  | cons q t ih =>
    by_cases h : q.1 == k
    · simp [alSet, h, alGet]
    · simp [alSet, h, alGet, ih]

/-- The bump update raises the value stored at the key by the weight. -/
theorem alGet_bump_self (d : List (String × Nat)) (k : String) (w : Nat) :
    alGet (bump d k w) k = alGet d k + w :=
  alGet_alSet_self d k (alGet d k + w)

/-- The bump update raises the total of a score dict by the weight. -/
theorem sumVals_bump (d : List (String × Nat)) (k : String) (w : Nat) :
    sumVals (bump d k w) = sumVals d + w := by
  induction d with
  | nil => simp [bump, alSet, alGet, sumVals]
  | cons q t ih =>
    by_cases h : q.1 == k
    · simp only [bump, alGet, alSet, h, if_true, if_pos h, sumVals, List.map_cons, List.sum_cons]
      omega
    · simp only [bump, alGet, alSet, h, if_neg h, Bool.false_eq_true, if_false,
        sumVals, List.map_cons, List.sum_cons] at ih ⊢
      omega

/-- A planet whose name is outside the weight table leaves the score
tables unchanged. -/
theorem scoreStep_skip (acc : ScoreTable × ScoreTable) (p : PlanetIn)
    (h : dictGet WEIGHTS p.name = none) : scoreStep acc p = acc := by
  simp [scoreStep, h]

/-- A weighted planet with a sign found in the zodiac table adds its
weight to the element bucket and the cross bucket of that sign in the
sign score table. -/
theorem scoreStep_sign (acc : ScoreTable × ScoreTable) (p : PlanetIn) (w : Nat) (props : SignProps)
    (hw : dictGet WEIGHTS p.name = some w) (hw0 : w ≠ 0)
    (hz : dictGet ZODIAC p.sign = some props) :
    alGet (scoreStep acc p).1.elements props.element = alGet acc.1.elements props.element + w ∧
    alGet (scoreStep acc p).1.crosses props.cross = alGet acc.1.crosses props.cross + w := by
  simp [scoreStep, hw, hw0, hz, alGet_bump_self]

/-- A weighted planet with a house found in the house table adds its
weight to the element bucket and the cross bucket of that house in the
house score table. -/
theorem scoreStep_house (acc : ScoreTable × ScoreTable) (p : PlanetIn) (w : Nat) (props : SignProps)
    (hw : dictGet WEIGHTS p.name = some w) (hw0 : w ≠ 0)
    (hh : dictGet HOUSE_PROPS p.house = some props) :
    alGet (scoreStep acc p).2.elements props.element = alGet acc.2.elements props.element + w ∧
    alGet (scoreStep acc p).2.crosses props.cross = alGet acc.2.crosses props.cross + w := by
  simp [scoreStep, hw, hw0, hh, alGet_bump_self]

/-- Appending one planet to the input list post-composes one loop step. -/
theorem calculate_scores_append (l : List PlanetIn) (p : PlanetIn) :
    calculate_scores (l ++ [p]) = scoreStep (calculate_scores l) p := by
  simp [calculate_scores, List.foldl_append]

/-- C8: calculate_scores adds, for each planet with a configured weight
(Sun and Moon 5; Mercury, Venus, Mars 3; Jupiter, Saturn 2; Uranus,
Neptune, Pluto 1), that weight to the element bucket and the modality
bucket of its sign, and separately to the element and modality buckets
of its house via the fixed house table independent of the sign; a body
outside the 10-body list contributes zero and is skipped silently, the
function being total and the extension leaving both tables unchanged. -/
theorem calc_scores_add_spec (planets : List PlanetIn) (p : PlanetIn) :
    (dictGet WEIGHTS p.name = none →
        calculate_scores (planets ++ [p]) = calculate_scores planets) ∧
    (∀ w props, dictGet WEIGHTS p.name = some w → w ≠ 0 →
        dictGet ZODIAC p.sign = some props →
        alGet (calculate_scores (planets ++ [p])).1.elements props.element
          = alGet (calculate_scores planets).1.elements props.element + w ∧
        alGet (calculate_scores (planets ++ [p])).1.crosses props.cross
          = alGet (calculate_scores planets).1.crosses props.cross + w) ∧
    (∀ w props, dictGet WEIGHTS p.name = some w → w ≠ 0 →
        dictGet HOUSE_PROPS p.house = some props →
        alGet (calculate_scores (planets ++ [p])).2.elements props.element
          = alGet (calculate_scores planets).2.elements props.element + w ∧
        alGet (calculate_scores (planets ++ [p])).2.crosses props.cross
          = alGet (calculate_scores planets).2.crosses props.cross + w) ∧
    dictGet WEIGHTS "Sun" = some 5 ∧ dictGet WEIGHTS "Moon" = some 5 ∧
    dictGet WEIGHTS "Mercury" = some 3 ∧ dictGet WEIGHTS "Venus" = some 3 ∧
    dictGet WEIGHTS "Mars" = some 3 ∧ dictGet WEIGHTS "Jupiter" = some 2 ∧
    dictGet WEIGHTS "Saturn" = some 2 ∧ dictGet WEIGHTS "Uranus" = some 1 ∧
    dictGet WEIGHTS "Neptune" = some 1 ∧ dictGet WEIGHTS "Pluto" = some 1 := by
  rw [calculate_scores_append]
  refine ⟨fun h => scoreStep_skip _ p h,
    fun w props hw hw0 hz => scoreStep_sign _ p w props hw hw0 hz,
    fun w props hw hw0 hh => scoreStep_house _ p w props hw hw0 hh,
    by decide, by decide, by decide, by decide, by decide,
    by decide, by decide, by decide, by decide, by decide⟩

/-- Witness for C8: an unknown body changes nothing, and the Sun in
Aries in house 1 adds 5 to the Fire and Cardinal buckets of both the
sign table and the house table. -/
theorem calc_scores_add_spec_witness :
    calculate_scores ([] ++ [PlanetIn.mk "Chiron" "Aries" 1]) = calculate_scores [] ∧
    alGet (calculate_scores ([] ++ [PlanetIn.mk "Sun" "Aries" 1])).1.elements "Огонь"
      = alGet (calculate_scores []).1.elements "Огонь" + 5 ∧
    alGet (calculate_scores ([] ++ [PlanetIn.mk "Sun" "Aries" 1])).1.crosses "Кардинальный"
      = alGet (calculate_scores []).1.crosses "Кардинальный" + 5 ∧
    alGet (calculate_scores ([] ++ [PlanetIn.mk "Sun" "Aries" 1])).2.elements "Огонь"
      = alGet (calculate_scores []).2.elements "Огонь" + 5 ∧
    alGet (calculate_scores ([] ++ [PlanetIn.mk "Sun" "Aries" 1])).2.crosses "Кардинальный"
      = alGet (calculate_scores []).2.crosses "Кардинальный" + 5 := by
  have hskip := (calc_scores_add_spec [] (PlanetIn.mk "Chiron" "Aries" 1)).1 (by decide)
  have hsun := calc_scores_add_spec [] (PlanetIn.mk "Sun" "Aries" 1)
  have hsign := hsun.2.1 5 (SignProps.mk "Огонь" "Кардинальный") (by decide) (by decide) (by decide)
  have hhouse := hsun.2.2.1 5 (SignProps.mk "Огонь" "Кардинальный") (by decide) (by decide) (by decide)
  exact ⟨hskip, hsign.1, hsign.2, hhouse.1, hhouse.2⟩

/-- One loop step of calculate_scores preserves equality of the element
total and the cross total inside each of the two score tables. -/
theorem scoreStep_balanced (acc : ScoreTable × ScoreTable) (p : PlanetIn)
    (h1 : sumVals acc.1.elements = sumVals acc.1.crosses)
    (h2 : sumVals acc.2.elements = sumVals acc.2.crosses) :
    sumVals (scoreStep acc p).1.elements = sumVals (scoreStep acc p).1.crosses ∧
    sumVals (scoreStep acc p).2.elements = sumVals (scoreStep acc p).2.crosses := by
  by_cases hw : (dictGet WEIGHTS p.name).getD 0 = 0
  · simp [scoreStep, hw, h1, h2]
  · cases hz : dictGet ZODIAC p.sign <;> cases hh : dictGet HOUSE_PROPS p.house <;>
      simp [scoreStep, hw, hz, hh, sumVals_bump, h1, h2]

/-- Folding loop steps preserves the balance of both score tables. -/
theorem foldl_scoreStep_balanced (l : List PlanetIn) :
    ∀ acc : ScoreTable × ScoreTable,
      sumVals acc.1.elements = sumVals acc.1.crosses →
      sumVals acc.2.elements = sumVals acc.2.crosses →
      sumVals (l.foldl scoreStep acc).1.elements = sumVals (l.foldl scoreStep acc).1.crosses ∧
      sumVals (l.foldl scoreStep acc).2.elements = sumVals (l.foldl scoreStep acc).2.crosses := by
  induction l with
  | nil => exact fun acc h1 h2 => ⟨h1, h2⟩
  | cons p t ih =>
    intro acc h1 h2
    have h := scoreStep_balanced acc p h1 h2
    simpa [List.foldl_cons] using ih (scoreStep acc p) h.1 h.2

/-- C10: for every input planet list, within the returned sign score
table the sum of all element scores equals the sum of all modality
scores, and the same equality holds within the returned house score
table, because each counted planet adds its weight to exactly one
element bucket and one modality bucket under the same guard. -/
theorem scores_balanced (planets : List PlanetIn) :
    sumVals (calculate_scores planets).1.elements = sumVals (calculate_scores planets).1.crosses ∧
    sumVals (calculate_scores planets).2.elements = sumVals (calculate_scores planets).2.crosses :=
  foldl_scoreStep_balanced planets (ScoreTable.mk [] [], ScoreTable.mk [] []) rfl rfl

/-- The Python max fold keeps a key drawn from the start value or the
scanned list whose measure dominates the start value and every scanned
entry. -/
theorem foldl_argmax (f : String → Nat) (l : List (String × Nat)) :
    ∀ b : String,
      (l.foldl (fun best r => if f r.1 > f best then r.1 else best) b = b ∨
        l.foldl (fun best r => if f r.1 > f best then r.1 else best) b ∈ l.map (fun q => q.1)) ∧
      f b ≤ f (l.foldl (fun best r => if f r.1 > f best then r.1 else best) b) ∧
      ∀ q ∈ l, f q.1 ≤ f (l.foldl (fun best r => if f r.1 > f best then r.1 else best) b) := by
  induction l with
  | nil => intro b; simp
  | cons r t ih =>
    intro b
    simp only [List.foldl_cons]
    obtain ⟨h1, h2, h3⟩ := ih (if f r.1 > f b then r.1 else b)
    have hb : f b ≤ f (if f r.1 > f b then r.1 else b) := by
      by_cases hc : f r.1 > f b
      · rw [if_pos hc]; omega
      · rw [if_neg hc]
    have hr : f r.1 ≤ f (if f r.1 > f b then r.1 else b) := by
      by_cases hc : f r.1 > f b
      · rw [if_pos hc]
      · rw [if_neg hc]; omega
    refine ⟨?_, le_trans hb h2, ?_⟩
    · by_cases hc : f r.1 > f b
      · rw [if_pos hc] at h1 ⊢
        right
        rcases h1 with h | h
        · rw [h]
          exact List.mem_map_of_mem (fun q => q.1) (List.mem_cons_self r t)
        · rw [List.map_cons]
          exact List.mem_cons_of_mem _ h
      · rw [if_neg hc] at h1 ⊢
        rcases h1 with h | h
        · exact Or.inl h
        · right
          rw [List.map_cons]
          exact List.mem_cons_of_mem _ h
    · intro q hq
      rcases List.mem_cons.mp hq with rfl | hm
      · exact le_trans hr h2
      · exact h3 q hm

/-- On a nonempty score dict the Python argmax returns a present key
whose stored value dominates the stored value of every entry. -/
theorem pyMaxKey_spec (d : List (String × Nat)) (h : d ≠ []) :
    ∃ k, pyMaxKey d = some k ∧ k ∈ d.map (fun q => q.1) ∧
      ∀ q ∈ d, alGet d q.1 ≤ alGet d k := by
  cases d with
  | nil => exact absurd rfl h
  | cons q t =>
    obtain ⟨h1, h2, h3⟩ := foldl_argmax (alGet (q :: t)) t q.1
    refine ⟨_, rfl, ?_, ?_⟩
    · rcases h1 with e | m
      · rw [e]; simp
      · simp [m]
    · intro r hr
      rcases List.mem_cons.mp hr with rfl | hm
      · exact h2
      · exact h3 r hm

/-- C9: get_dominants returns the argmax element and argmax modality of
the score mappings (a present key of maximal stored value in each) and
returns the sentinel pair (none, none) without raising whenever either
mapping is empty; get_synthetic_sign and get_synthetic_house given an
undefined (none) element or modality return none instead of attempting
a table lookup. -/
theorem dominants_spec (s : ScoreTable) :
    (s.elements = [] ∨ s.crosses = [] → get_dominants s = (none, none)) ∧
    (s.elements ≠ [] → s.crosses ≠ [] →
        (∃ kE, (get_dominants s).1 = some kE ∧ kE ∈ s.elements.map (fun q => q.1) ∧
            ∀ q ∈ s.elements, alGet s.elements q.1 ≤ alGet s.elements kE) ∧
        (∃ kC, (get_dominants s).2 = some kC ∧ kC ∈ s.crosses.map (fun q => q.1) ∧
            ∀ q ∈ s.crosses, alGet s.crosses q.1 ≤ alGet s.crosses kC)) ∧
    (∀ c, get_synthetic_sign none c = none) ∧
    (∀ e, get_synthetic_sign e none = none) ∧
    (∀ c, get_synthetic_house none c = none) ∧
    (∀ e, get_synthetic_house e none = none) := by
  refine ⟨?_, ?_, ?_, ?_, ?_, ?_⟩
  · rintro (h | h) <;> simp [get_dominants, h]
  · intro h1 h2
    have hne : (s.elements.isEmpty || s.crosses.isEmpty) = false := by
      simp [List.isEmpty_iff, h1, h2]
    obtain ⟨kE, hkE, hmE, hdE⟩ := pyMaxKey_spec s.elements h1
    obtain ⟨kC, hkC, hmC, hdC⟩ := pyMaxKey_spec s.crosses h2
    refine ⟨⟨kE, ?_, hmE, hdE⟩, ⟨kC, ?_, hmC, hdC⟩⟩
    · simp [get_dominants, hne, hkE]
    · simp [get_dominants, hne, hkC]
  · intro c; rfl
  · intro e; simp [get_synthetic_sign, falsy]
  · intro c; rfl
  · intro e; simp [get_synthetic_house, falsy]

/-- Witness for C9: empty tables give the sentinel, a none argument
gives none, and a concrete one-entry pair of mappings has its argmax
keys returned. -/
theorem dominants_spec_witness :
    get_dominants (ScoreTable.mk [] []) = (none, none) ∧
    get_synthetic_sign none (some "Кардинальный") = none ∧
    get_synthetic_house (some "Огонь") none = none ∧
    (get_dominants (ScoreTable.mk [("Огонь", 5)] [("Кардинальный", 5)])).1 = some "Огонь" ∧
    (get_dominants (ScoreTable.mk [("Огонь", 5)] [("Кардинальный", 5)])).2 = some "Кардинальный" := by
  have hempty := (dominants_spec (ScoreTable.mk [] [])).1 (Or.inl rfl)
  have h := (dominants_spec (ScoreTable.mk [("Огонь", 5)] [("Кардинальный", 5)])).2.1
    (by simp) (by simp)
  obtain ⟨⟨kE, hkE, hmE, -⟩, ⟨kC, hkC, hmC, -⟩⟩ := h
  simp only [List.map_cons, List.map_nil, List.mem_singleton] at hmE hmC
  refine ⟨hempty, (dominants_spec (ScoreTable.mk [] [])).2.2.1 (some "Кардинальный"),
    (dominants_spec (ScoreTable.mk [] [])).2.2.2.2.2 (some "Огонь"), ?_, ?_⟩
  · rw [hkE, hmE]
  · rw [hkC, hmC]

/-- The angular distance of a longitude to itself is zero. -/
theorem angDist_self (a : ℝ) : angDist a a = 0 := by
  have h : ¬ (0 : ℝ) > Real.pi := not_lt.mpr Real.pi_pos.le
  unfold angDist
  rw [sub_self, abs_zero, if_neg h]

/-- The angular distance between longitudes 1 and 0 radians is 1. -/
theorem angDist_one_zero : angDist 1 0 = 1 := by
  have h : ¬ (1 : ℝ) > Real.pi := not_lt.mpr (by linarith [Real.pi_gt_three])
  unfold angDist
  rw [sub_zero, abs_one, if_neg h]

/-- A hit of the search loop is the first hour at or after the start
hour within the remaining iteration budget whose angular distance is
below the tolerance. -/
theorem findLoop_some_spec (moonLon : ℤ → ℝ) (natal : ℝ) :
    ∀ (n : ℕ) (t u : ℤ), findLoop moonLon natal n t = some u →
      t ≤ u ∧ u < t + n ∧ angDist (moonLon u) natal < 0.01 ∧
      ∀ s : ℤ, t ≤ s → s < u → ¬ angDist (moonLon s) natal < 0.01 := by
  intro n
  induction n with
  | zero => intro t u h; simp [findLoop] at h
  | succ m ih =>
    intro t u h
    simp only [findLoop] at h
    by_cases hc : angDist (moonLon t) natal < 0.01
    · rw [if_pos hc] at h
      obtain rfl : t = u := Option.some_inj.mp h
      exact ⟨le_refl t, by omega, hc, fun s h1 h2 => absurd (lt_of_le_of_lt h1 h2) (lt_irrefl t)⟩
    · rw [if_neg hc] at h
      obtain ⟨h1, h2, h3, h4⟩ := ih (t + 1) u h
      refine ⟨by omega, by omega, h3, ?_⟩
      intro s hs1 hs2
      rcases eq_or_lt_of_le hs1 with rfl | hlt
      · exact hc
      · exact h4 s (by omega) hs2

/-- A miss of the search loop means no hour in the searched window has
angular distance below the tolerance. -/
theorem findLoop_none_spec (moonLon : ℤ → ℝ) (natal : ℝ) :
    ∀ (n : ℕ) (t : ℤ), findLoop moonLon natal n t = none →
      ∀ s : ℤ, t ≤ s → s < t + n → ¬ angDist (moonLon s) natal < 0.01 := by
  intro n
  induction n with
  | zero => intro t _ s h1 h2; omega
  | succ m ih =>
    intro t h s hs1 hs2
    simp only [findLoop] at h
    by_cases hc : angDist (moonLon t) natal < 0.01
    · rw [if_pos hc] at h; exact absurd h (by simp)
    · rw [if_neg hc] at h
      rcases eq_or_lt_of_le hs1 with rfl | hlt
      · exact hc
      · exact ih (t + 1) h s (by omega) (by omega)

/-- When no hour at all is within tolerance the loop always misses. -/
theorem findLoop_of_all_far (moonLon : ℤ → ℝ) (natal : ℝ)
    (h : ∀ t : ℤ, ¬ angDist (moonLon t) natal < 0.01) :
    ∀ (n : ℕ) (t : ℤ), findLoop moonLon natal n t = none := by
  intro n
  induction n with
  | zero => intro t; rfl
  | succ m ih => intro t; simp [findLoop, if_neg (h t), ih]

/-- When the start hour is within tolerance the loop returns it at once. -/
theorem findLoop_hit (moonLon : ℤ → ℝ) (natal : ℝ) (n : ℕ) (t : ℤ)
    (h : angDist (moonLon t) natal < 0.01) :
    findLoop moonLon natal (n + 1) t = some t := by
  simp [findLoop, h]

/-- C1: the Lunar Return search begins 14 days before the captured
current UTC hour, advances in fixed 1-hour steps for at most 42 * 24
steps, computes the Moon longitude at each step, and returns as the
cycle start the first hour whose shortest-path angular distance to the
natal Moon longitude is strictly below 0.01 radians; if no step
qualifies the search yields no instant; on in-range longitudes the
tested distance is min of the absolute difference and its complement to
2 pi. -/
theorem lunar_search_spec (moonLon : ℤ → ℝ) (natal : ℝ) (now startFrom t : ℤ) :
    (get_lunar_return moonLon natal now).1 =
      (find_next_return moonLon natal (now - 14 * 24)).getD now ∧
    (find_next_return moonLon natal startFrom = some t →
        startFrom ≤ t ∧ t < startFrom + 42 * 24 ∧ angDist (moonLon t) natal < 0.01 ∧
        ∀ s : ℤ, startFrom ≤ s → s < t → ¬ angDist (moonLon s) natal < 0.01) ∧
    (find_next_return moonLon natal startFrom = none →
        ∀ s : ℤ, startFrom ≤ s → s < startFrom + 42 * 24 → ¬ angDist (moonLon s) natal < 0.01) ∧
    (∀ a b : ℝ, 0 ≤ a → a < 2 * Real.pi → 0 ≤ b → b < 2 * Real.pi →
        angDist a b = min |a - b| (2 * Real.pi - |a - b|)) := by
  refine ⟨rfl, ?_, ?_, ?_⟩
  · intro h
    obtain ⟨h1, h2, h3, h4⟩ := findLoop_some_spec moonLon natal (42 * 24) startFrom t h
    refine ⟨h1, ?_, h3, h4⟩
    have : ((42 * 24 : ℕ) : ℤ) = 42 * 24 := by norm_num
    omega
  · intro h s hs1 hs2
    refine findLoop_none_spec moonLon natal (42 * 24) startFrom h s hs1 ?_
    have : ((42 * 24 : ℕ) : ℤ) = 42 * 24 := by norm_num
    omega
  · intro a b _ _ _ _
    unfold angDist
    by_cases h : |a - b| > Real.pi
    · rw [if_pos h, min_eq_right (by linarith)]
    · push_neg at h
      rw [if_neg (not_lt.mpr h), min_eq_left (by linarith)]

/-- Witness for C1: with a constant Moon longitude equal to the natal
longitude the search hits its very first step. -/
theorem lunar_search_spec_witness :
    angDist ((fun _ : ℤ => (0 : ℝ)) 0) 0 < 0.01 ∧
    (0 : ℤ) ≤ 0 ∧ (0 : ℤ) < 0 + 42 * 24 ∧
    angDist 0 0 = min |(0 : ℝ) - 0| (2 * Real.pi - |(0 : ℝ) - 0|) := by
  have hzero : angDist ((fun _ : ℤ => (0 : ℝ)) 0) 0 < 0.01 := by
    simpa [angDist_self] using (by norm_num : (0 : ℝ) < 0.01)
  have hsome : find_next_return (fun _ : ℤ => (0 : ℝ)) 0 0 = some 0 := by
    have h := findLoop_hit (fun _ : ℤ => (0 : ℝ)) 0 1007 0 hzero
    simpa [find_next_return] using h
  obtain ⟨-, h2, -, h4⟩ := lunar_search_spec (fun _ : ℤ => (0 : ℝ)) 0 0 0 0
  obtain ⟨a, b, c, -⟩ := h2 hsome
  exact ⟨c, a, b, h4 0 0 le_rfl (by positivity) le_rfl (by positivity)⟩

/-- C2: get_lunar_return never fails for search failure and always
returns a pair of hours with the end strictly after the start: if the
42-day window yields no match the start falls back to the captured
current UTC hour; the end is searched starting 25 days after the found
start, and if that search also fails the end falls back to start plus
27 days 8 hours. -/
theorem lunar_return_pair_spec (moonLon : ℤ → ℝ) (natal : ℝ) (now : ℤ) :
    (get_lunar_return moonLon natal now).1 < (get_lunar_return moonLon natal now).2 ∧
    (find_next_return moonLon natal (now - 14 * 24) = none →
        (get_lunar_return moonLon natal now).1 = now) ∧
    (get_lunar_return moonLon natal now).2 =
      (find_next_return moonLon natal ((get_lunar_return moonLon natal now).1 + 25 * 24)).getD
        ((get_lunar_return moonLon natal now).1 + (27 * 24 + 8)) := by
  refine ⟨?_, ?_, rfl⟩
  · show lunar_return_start moonLon natal now <
      (find_next_return moonLon natal (lunar_return_start moonLon natal now + 25 * 24)).getD
        (lunar_return_start moonLon natal now + (27 * 24 + 8))
    cases hE : find_next_return moonLon natal (lunar_return_start moonLon natal now + 25 * 24) with
    | none => simp
    | some u =>
      have h1 := (findLoop_some_spec moonLon natal (42 * 24) _ u hE).1
      simp
      omega
  · intro h
    show (find_next_return moonLon natal (now - 14 * 24)).getD now = now
    rw [h]
    rfl

/-- Witness for C2: with a Moon longitude never within tolerance both
searches miss, the start falls back to the captured hour 0 and the end
to hour 656, which is after the start. -/
theorem lunar_return_pair_spec_witness :
    (get_lunar_return (fun _ : ℤ => (1 : ℝ)) 0 0).1 = 0 ∧
    (get_lunar_return (fun _ : ℤ => (1 : ℝ)) 0 0).1 <
      (get_lunar_return (fun _ : ℤ => (1 : ℝ)) 0 0).2 := by
  have hfar : ∀ u : ℤ, ¬ angDist ((fun _ : ℤ => (1 : ℝ)) u) 0 < 0.01 := by
    intro u
    show ¬ angDist (1 : ℝ) 0 < 0.01
    rw [angDist_one_zero]
    norm_num
  have hnone : find_next_return (fun _ : ℤ => (1 : ℝ)) 0 (0 - 14 * 24) = none :=
    findLoop_of_all_far _ _ hfar _ _
  have h := lunar_return_pair_spec (fun _ : ℤ => (1 : ℝ)) 0 0
  exact ⟨h.2.1 hnone, h.1⟩

/-- Indexing a string list within bounds yields a member of the list. -/
theorem list_getD_mem : ∀ (l : List String) (i : ℕ), i < l.length → l.getD i "" ∈ l := by
  intro l
  induction l with
  | nil => intro i h; simp at h
  | cons a t ih =>
    intro i h
    cases i with
    | zero => simp
    | succ j =>
      simp only [List.getD_cons_succ]
      exact List.mem_cons_of_mem a (ih j (by simpa using h))

/-- A modulo-12 index into the sign name list always lands in the list. -/
theorem sign_index_mem (x : ℤ) : signNames.getD ((x % 12).toNat) "" ∈ signNames := by
  have h1 : 0 ≤ x % 12 := Int.emod_nonneg x (by norm_num)
  have h2 : x % 12 < 12 := Int.emod_lt_of_pos x (by norm_num)
  have hl : signNames.length = 12 := rfl
  refine list_getD_mem signNames ((x % 12).toNat) ?_
  rw [hl]
  omega

/-- The chart point computation is a total function: for every sidereal
time and every latitude both components are ordinary sign names. -/
theorem chart_points_total (lst lat : ℝ) :
    (get_chart_points lst lat).1 ∈ signNames ∧ (get_chart_points lst lat).2 ∈ signNames := by
  exact ⟨sign_index_mem _, sign_index_mem _⟩

/-- C3 (refuting the claimed behavior, supporting the code_bug verdict):
at observer latitude plus or minus 90 degrees the chart point
computation of `get_chart_points` does not fail fast with any domain or
range error; it runs through the tangent and arctangent arithmetic and
silently returns a pair of ordinary sign names, exactly as at any other
latitude. -/
theorem chart_points_pole (lst : ℝ) :
    (get_chart_points lst (Real.pi / 2)).1 ∈ signNames ∧
    (get_chart_points lst (Real.pi / 2)).2 ∈ signNames ∧
    (get_chart_points lst (-(Real.pi / 2))).1 ∈ signNames ∧
    (get_chart_points lst (-(Real.pi / 2))).2 ∈ signNames :=
  ⟨(chart_points_total lst (Real.pi / 2)).1, (chart_points_total lst (Real.pi / 2)).2,
   (chart_points_total lst (-(Real.pi / 2))).1, (chart_points_total lst (-(Real.pi / 2))).2⟩

/-- Python int truncation agrees with the floor on nonnegative input. -/
theorem pythonTrunc_eq_floor (x : ℝ) (h : 0 ≤ x) : pythonTrunc x = ⌊x⌋ :=
  if_pos h

/-- C4: the planetary snapshot returns an ordered sequence of exactly 10
positions for the fixed body list Sun, Moon, Mercury, Venus, Mars,
Jupiter, Saturn, Uranus, Neptune, Pluto in that order, and for every
body its sign is the one at index floor(longitude / 30) mod 12 and its
house is ((sign_index - ascendant_sign_index) mod 12) + 1, always an
integer in 1..12 (the ephemeris longitudes in degrees being
nonnegative). -/
theorem planets_snapshot_spec (ascIdx : ℤ) (lonAt lonNextAt : String → ℝ)
    (hlon : ∀ n, 0 ≤ lonAt n) :
    (get_planets_data ascIdx lonAt lonNextAt).length = 10 ∧
    (get_planets_data ascIdx lonAt lonNextAt).map (fun p => p.name) = bodyNames ∧
    ∀ p ∈ get_planets_data ascIdx lonAt lonNextAt,
      p.sign = signNames.getD ((⌊lonAt p.name / 30⌋ % 12).toNat) "" ∧
      p.house = ((⌊lonAt p.name / 30⌋ % 12 - ascIdx) % 12) + 1 ∧
      1 ≤ p.house ∧ p.house ≤ 12 := by
  refine ⟨by simp [get_planets_data, bodyNames], ?_, ?_⟩
  · simp only [get_planets_data, List.map_map]
    have h : ((fun p => p.name) ∘ fun n => mkPlanet ascIdx n (lonAt n) (lonNextAt n)) =
        fun n => n := by
      funext n
      rfl
    rw [h]
    simp
  · intro p hp
    simp only [get_planets_data, List.mem_map] at hp
    obtain ⟨n, hn, rfl⟩ := hp
    have hfl : pythonTrunc (lonAt n / 30) = ⌊lonAt n / 30⌋ :=
      pythonTrunc_eq_floor _ (div_nonneg (hlon n) (by norm_num))
    simp only [mkPlanet]
    rw [hfl]
    refine ⟨rfl, by omega, by omega, by omega⟩

/-- Witness for C4: a snapshot with all longitudes at 45 degrees has 10
entries carrying the fixed body names in order. -/
theorem planets_snapshot_spec_witness :
    (get_planets_data 0 (fun _ => (45 : ℝ)) (fun _ => (46 : ℝ))).length = 10 ∧
    (get_planets_data 0 (fun _ => (45 : ℝ)) (fun _ => (46 : ℝ))).map (fun p => p.name)
      = bodyNames := by
  have h := planets_snapshot_spec 0 (fun _ => (45 : ℝ)) (fun _ => (46 : ℝ))
    (fun n => by norm_num)
  exact ⟨h.1, h.2.1⟩

/-- The sequential delta normalization maps 1 to itself. -/
theorem normDelta_one : normDelta 1 = 1 := by
  simp only [normDelta]
  rw [if_neg (by norm_num : ¬ (1 : ℝ) > 180), if_neg (by norm_num : ¬ (1 : ℝ) < -180)]

/-- C5: a body is flagged retrograde if and only if the shortest-path
normalized difference between its ecliptic longitude 24 hours later and
its longitude at the chart instant is strictly negative; a body whose
normalized delta is zero or positive (for example advancing one degree
per day) is not flagged; on deltas in (-360, 360) the normalization
returns the representative of the delta modulo 360 lying in
[-180, 180]. -/
theorem retro_flag_spec (ascIdx : ℤ) (lonAt lonNextAt : String → ℝ) :
    (∀ p ∈ get_planets_data ascIdx lonAt lonNextAt,
        (p.is_retro ↔ normDelta (lonNextAt p.name - lonAt p.name) < 0) ∧
        (0 ≤ normDelta (lonNextAt p.name - lonAt p.name) → ¬ p.is_retro)) ∧
    (∀ d : ℝ, -360 < d → d < 360 →
        -180 ≤ normDelta d ∧ normDelta d ≤ 180 ∧
        (normDelta d = d ∨ normDelta d = d - 360 ∨ normDelta d = d + 360)) ∧
    (∀ name lon, ¬ (mkPlanet ascIdx name lon (lon + 1)).is_retro) := by
  refine ⟨?_, ?_, ?_⟩
  · intro p hp
    simp only [get_planets_data, List.mem_map] at hp
    obtain ⟨n, hn, rfl⟩ := hp
    simp only [mkPlanet]
    exact ⟨by simp, fun h => not_lt.mpr h⟩
  · intro d h1 h2
    simp only [normDelta]
    by_cases hA : d > 180
    · have hd1 : ¬ (d - 360 < -180) := by linarith
      rw [if_pos hA, if_neg hd1]
      exact ⟨by linarith, by linarith, Or.inr (Or.inl rfl)⟩
    · push_neg at hA
      by_cases hB : d < -180
      · rw [if_neg (not_lt.mpr hA), if_pos hB]
        exact ⟨by linarith, by linarith, Or.inr (Or.inr rfl)⟩
      · push_neg at hB
        rw [if_neg (not_lt.mpr hA), if_neg (not_lt.mpr hB)]
        exact ⟨by linarith, by linarith, Or.inl rfl⟩
  · intro name lon
    show ¬ normDelta (lon + 1 - lon) < 0
    rw [show lon + 1 - lon = (1 : ℝ) by ring, normDelta_one]
    norm_num

/-- Witness for C5: a body advancing one degree per day is not flagged,
a snapshot entry with a positive normalized delta is not flagged, and
the delta 200 normalizes into the band. -/
theorem retro_flag_spec_witness :
    ¬ (mkPlanet 0 "Sun" (10 : ℝ) (10 + 1)).is_retro ∧
    ¬ (mkPlanet 0 "Sun" (10 : ℝ) 11).is_retro ∧
    -180 ≤ normDelta 200 ∧ normDelta 200 ≤ 180 := by
  have h := retro_flag_spec 0 (fun _ => (10 : ℝ)) (fun _ => (11 : ℝ))
  have hmem : mkPlanet 0 "Sun" (10 : ℝ) 11 ∈
      get_planets_data 0 (fun _ => (10 : ℝ)) (fun _ => (11 : ℝ)) := by
    show mkPlanet 0 "Sun" (10 : ℝ) 11 ∈
      bodyNames.map (fun n => mkPlanet 0 n ((fun _ => (10 : ℝ)) n) ((fun _ => (11 : ℝ)) n))
    exact List.mem_map_of_mem _ (by simp [bodyNames])
  have hpos : 0 ≤ normDelta ((11 : ℝ) - 10) := by
    rw [show (11 : ℝ) - 10 = 1 by norm_num, normDelta_one]
    norm_num
  have hband := h.2.1 200 (by norm_num) (by norm_num)
  exact ⟨h.2.2 "Sun" 10, (h.1 _ hmem).2 hpos, hband.1, hband.2.1⟩
